import Mathlib

/-!
Verification of the installer engine of the `reactronite` repository.

The definitions below are a shallow embedding of the relevant source
functions:
* `src/src/ipc/installerIPC.ts` — the IPC handlers `installer:runPreCheck`,
  `installer:runCommand`, `installer:streamCommand`,
  `installer:getInstallSteps` / `getFilteredInstallSteps` and
  `installer:runInstallation`;
* the advanced installation stage (`AdvancedInstallationStage`) — its
  `evaluateCondition`, `processCommand`, `handlePromptSubmit` and
  `runInstallation` functions.

Host effects (process spawning, the dynamic `new Function` evaluation of
condition strings) are abstracted as explicit function parameters; every
pure computation (template substitution, the safety allow-list, result
shaping, log-line construction) is translated directly from the source.
-/

/-- JavaScript values as they occur in the Variable Store (`UserConfig`):
string, number, boolean, string array, or null/undefined (both modelled by
`null`). -/
inductive Value where
  | str (s : String)
  | num (n : Int)
  | bool (b : Bool)
  | arr (xs : List String)
  | null
deriving DecidableEq, Repr

/-- The Variable Store: an association list of variable name to value.
`jsLookup` returns the first binding, and `storeSet` prepends, so later
writes shadow earlier ones (the overwrite semantics of a JS object). -/
abbrev Store : Type := List (String × Value)

/-- Property lookup `store[key]`; `none` models `undefined`. -/
def jsLookup : Store → String → Option Value
  | [], _ => none
  | (k, v) :: rest, key => if k = key then some v else jsLookup rest key

/-- `\x7b...obj, [key]: value\x7d`: overwrite/add a binding. -/
def storeSet (key : String) (v : Value) (s : Store) : Store := (key, v) :: s

/-- JavaScript `String(value)` coercion (arrays join with a comma, as JS
`Array.prototype.toString` does). -/
def jsString : Value → String
  | Value.str s => s
  | Value.num n => toString n
  | Value.bool b => if b then "true" else "false"
  | Value.arr xs => String.intercalate "," xs
  | Value.null => "null"

/-- JavaScript truthiness of a Variable Store value (used to state claims
that speak about "truthy" variables). -/
def truthy : Value → Bool
  | Value.str s => s ≠ ""
  | Value.num n => n ≠ 0
  | Value.bool b => b
  | Value.arr _ => true
  | Value.null => false

/-- Truthiness of an optional boolean flag such as `command.safe`:
true exactly when the flag is explicitly `true`. -/
def flagTrue : Option Bool → Bool
  | some true => true
  | _ => false

/-- Truthiness of an optional string field such as `command.captureAs`:
`undefined` and the empty string are falsy. -/
def optTruthy : Option String → Bool
  | some s => s ≠ ""
  | none => false

/-- `needle` matches at the head of `hay` (character lists). -/
def leadMatch : List Char → List Char → Bool
  | [], _ => true
  | _ :: _, [] => false
  | a :: as, b :: bs => a == b && leadMatch as bs

/-- JS `String.prototype.startsWith`. -/
def jsStartsWith (s pat : String) : Bool := leadMatch pat.data s.data

/-- Replace every occurrence of `pat` (non-empty) by `rep`, scanning left
to right; `fuel` bounds the recursion and is instantiated with the length
of the scanned list, which suffices because every step consumes at least
one character. -/
def replaceFuel : Nat → List Char → List Char → List Char → List Char
  | 0, _, _, s => s
  | Nat.succ n, pat, rep, s =>
    match s with
    | [] => []
    | c :: rest =>
      if leadMatch pat s then rep ++ replaceFuel n pat rep (List.drop pat.length s)
      else c :: replaceFuel n pat rep rest

/-- JS `string.replace(new RegExp(pat, 'g'), rep)` for a pattern without
regex metacharacters: global literal replacement. -/
def jsReplaceAll (s pat rep : String) : String :=
  if pat.data.isEmpty then s
  else String.mk (replaceFuel s.data.length pat.data rep.data s.data)

/-- The literal placeholder text `\x7b\x7bkey\x7d\x7d`. -/
def placeholder (key : String) : String := "\x7b\x7b" ++ key ++ "\x7d\x7d"

/-- `installerIPC.ts` lines 119-121 (identically lines 172-175 and
310-313): the replacement text for one store entry,
`value !== undefined && value !== null ? String(value) : ''`. -/
def replacementValue : Value → String
  | Value.null => ""
  | v => jsString v

/-- Template resolution as performed by `installer:runCommand`
(`installerIPC.ts` lines 118-122): iterate over the entries of the
variable store and replace every occurrence of `\x7b\x7bkey\x7d\x7d` by the
string form of the value. Note that it iterates over STORE entries, not
over the placeholders occurring in the command. -/
def resolveTemplate (cmd : String) (vars : Store) : String :=
  vars.foldl (fun acc kv => jsReplaceAll acc (placeholder kv.fst) (replacementValue kv.snd)) cmd

/-- The allow-list of `installer:runCommand` (`installerIPC.ts`
lines 125-129), also used verbatim by `installer:runInstallation`
(lines 316-320). -/
def safeCommands : List String :=
  ["uname", "hostname", "whoami", "pwd", "date", "df", "free",
   "ip route", "ip addr", "ls", "echo", "cat /etc/os-release",
   "systemctl list-units", "which", "test", "head", "tail", "wc"]

/-- `isInherentlySafe` (`installerIPC.ts` lines 131-135): the resolved
command starts with an allow-listed word followed by a space, equals it
exactly, or starts with `echo `. -/
def isInherentlySafe (c : String) : Bool :=
  safeCommands.any (fun s => jsStartsWith c (s ++ " ") || c == s || jsStartsWith c "echo ")

/-- The echo rewrite applied to commands that are not allowed to run for
real: `echo "Would run: <resolved>"`. -/
def echoWrap (s : String) : String := "echo \"Would run: " ++ s ++ "\""

/-- Command variants (`InstallCommand.type`). -/
inductive CmdType where
  | command
  | prompt
  | display
deriving DecidableEq, Repr

/-- Prompt variants (`InstallCommand.promptType`). -/
inductive PromptType where
  | input
  | password
  | confirm
  | select
  | multiselect
deriving DecidableEq, Repr

/-- `InstallCommand` (from `src/src/app/types/installer-config.ts`);
optional fields are `Option`s defaulting to `none` (= `undefined`). -/
structure InstallCommand where
  cmd : Option String := none
  description : String := ""
  safe : Option Bool := none
  sensitive : Option Bool := none
  expectedExitCode : Option Int := none
  timeout : Option Nat := none
  captureAs : Option String := none
  defaultValue : Option String := none
  condition : Option String := none
  type : Option CmdType := none
  promptType : Option PromptType := none
  title : Option String := none
  content : List String := []
deriving DecidableEq, Repr

/-- The final text handed to `execAsync` by `installer:runCommand`
(`installerIPC.ts` lines 117-140): resolve templates, then rewrite to an
echo unless the command is flagged safe or is inherently safe. -/
def runCommandExecText (c : InstallCommand) (vars : Store) : String :=
  let processed := resolveTemplate (c.cmd.getD "") vars
  if !(flagTrue c.safe) && !(isInherentlySafe processed) then echoWrap processed
  else processed

/-- The final text handed to `spawn` by `installer:streamCommand`
(`installerIPC.ts` lines 170-180): same template resolution, but the only
commands that escape the echo rewrite without `safe:true` are those whose
resolved text starts with `echo` — the allow-list is not consulted. -/
def streamExecText (c : InstallCommand) (vars : Store) : String :=
  let processed := resolveTemplate (c.cmd.getD "") vars
  if !(flagTrue c.safe) && !(jsStartsWith processed "echo") then echoWrap processed
  else processed

/-- The echo rewrite strictly lengthens the string, so it never returns
its argument. -/
theorem echoWrap_ne (s : String) : echoWrap s ≠ s := by
  intro h
  have hl := congrArg String.length h
  rw [echoWrap, String.length_append, String.length_append] at hl
  have h1 : ("echo \"Would run: ").length = 17 := rfl
  have h2 : ("\"").length = 1 := rfl
  omega

theorem flagTrue_eq_true_iff (o : Option Bool) : flagTrue o = true ↔ o = some true := by
  rcases o with _ | b
  · simp [flagTrue]
  · cases b <;> simp [flagTrue]

/-- A concrete unsafe command used to witness the classifier behaviour. -/
def dangerCmd : InstallCommand := { cmd := some "rm -rf /", description := "wipe" }

/-- A concrete allow-listed command (`ls -la`) without `safe:true`. -/
def lsCmd : InstallCommand := { cmd := some "ls -la", description := "list files" }

theorem flagTrue_eq_false (o : Option Bool) (h : o ≠ some true) : flagTrue o = false := by
  cases hft : flagTrue o
  · rfl
  · exact absurd ((flagTrue_eq_true_iff o).mp hft) h

/-- If neither `safe:true` nor the allow-list applies, `installer:runCommand`
executes the echo rewrite. -/
theorem runCommandExecText_rewrite (c : InstallCommand) (vars : Store)
    (hs : c.safe ≠ some true)
    (hi : isInherentlySafe (resolveTemplate (c.cmd.getD "") vars) = false) :
    runCommandExecText c vars = echoWrap (resolveTemplate (c.cmd.getD "") vars) := by
  have hf : flagTrue c.safe = false := flagTrue_eq_false c.safe hs
  simp [runCommandExecText, hf, hi]

/-- If `safe:true` or the allow-list applies, `installer:runCommand`
executes the resolved command itself. -/
theorem runCommandExecText_real (c : InstallCommand) (vars : Store)
    (h : c.safe = some true ∨ isInherentlySafe (resolveTemplate (c.cmd.getD "") vars) = true) :
    runCommandExecText c vars = resolveTemplate (c.cmd.getD "") vars := by
  rcases h with hs | hi
  · have hf : flagTrue c.safe = true := (flagTrue_eq_true_iff c.safe).mpr hs
    simp [runCommandExecText, hf]
  · simp [runCommandExecText, hi]

/-- C1 counterexample: `rm -rf /` is neither flagged safe nor allow-listed,
and the text handed to the executor is the echo command
`echo "Would run: rm -rf /"` — not the bare string `Would run: rm -rf /`
that the claim asserts is executed. -/
theorem runCommand_wouldRun_text_cex :
    dangerCmd.safe ≠ some true
    ∧ isInherentlySafe (resolveTemplate "rm -rf /" []) = false
    ∧ runCommandExecText dangerCmd [] ≠ "Would run: rm -rf /"
    ∧ runCommandExecText dangerCmd [] = "echo \"Would run: rm -rf /\"" := by
  decide

/-- C1 (amended): after template resolution, `installer:runCommand`
executes the resolved command for real iff `safe` is explicitly true or the
resolved text matches the read-only allow-list; otherwise the text actually
executed is the echo command `echo "Would run: <resolved>"` (whose shell
output is `Would run: <resolved>`), and the original command is never
invoked. -/
theorem runCommand_safety_classification (c : InstallCommand) (vars : Store) :
    (runCommandExecText c vars = resolveTemplate (c.cmd.getD "") vars
      ↔ (c.safe = some true ∨ isInherentlySafe (resolveTemplate (c.cmd.getD "") vars) = true))
    ∧ (c.safe ≠ some true →
        isInherentlySafe (resolveTemplate (c.cmd.getD "") vars) = false →
        runCommandExecText c vars = echoWrap (resolveTemplate (c.cmd.getD "") vars)) := by
  constructor
  · constructor
    · intro h
      by_cases hs : c.safe = some true
      · exact Or.inl hs
      · by_cases hi : isInherentlySafe (resolveTemplate (c.cmd.getD "") vars) = true
        · exact Or.inr hi
        · have hw := runCommandExecText_rewrite c vars hs (Bool.eq_false_iff.mpr hi)
          rw [h] at hw
          exact absurd hw.symm (echoWrap_ne _)
    · exact runCommandExecText_real c vars
  · exact runCommandExecText_rewrite c vars

theorem runCommand_safety_classification_witness :
    runCommandExecText dangerCmd [] = echoWrap (resolveTemplate (dangerCmd.cmd.getD "") []) :=
  (runCommand_safety_classification dangerCmd []).2 (by decide) (by decide)

/-- A template whose placeholder key is absent from every store used below. -/
def missingTemplate : String := "echo \x7b\x7bmissing\x7d\x7d"

/-- C7 counterexample: with `missing` absent from the store, the
placeholder stays literally in the resolved text — it is not replaced by
the empty string (which would give `echo `). -/
theorem resolveTemplate_missing_left_cex :
    resolveTemplate missingTemplate [("other", Value.str "v")] = missingTemplate
    ∧ resolveTemplate missingTemplate [("other", Value.str "v")] ≠ "echo " := by
  decide

/-- C7 (amended): substitution is driven by the entries of the store, so a
placeholder whose key is absent from the store is left as literal
placeholder text; resolving against an empty store returns the template
unchanged; a key that is present but bound to null/undefined is replaced
by the empty string. -/
theorem resolveTemplate_absent_key (cmd : String) :
    resolveTemplate cmd [] = cmd
    ∧ resolveTemplate missingTemplate [("name", Value.str "x"), ("flag", Value.bool true)]
        = missingTemplate
    ∧ resolveTemplate "echo \x7b\x7bk\x7d\x7d" [("k", Value.null)] = "echo " :=
  ⟨rfl, by decide, by decide⟩

/-- C9: in the streaming path (`installer:streamCommand`) a command without
`safe:true` runs for real exactly when its resolved text starts with
`echo`; the allow-list of `installer:runCommand` is not consulted, so the
allow-listed `ls -la` without `safe:true` is rewritten to the echo
simulation in the streaming path while running for real in the
non-streaming path. -/
theorem streamCommand_echo_only (c : InstallCommand) (vars : Store)
    (hs : c.safe ≠ some true) :
    (streamExecText c vars = resolveTemplate (c.cmd.getD "") vars
      ↔ jsStartsWith (resolveTemplate (c.cmd.getD "") vars) "echo" = true)
    ∧ streamExecText lsCmd [] = echoWrap "ls -la"
    ∧ runCommandExecText lsCmd [] = "ls -la"
    ∧ lsCmd.safe = none ∧ isInherentlySafe "ls -la" = true := by
  have hf : flagTrue c.safe = false := flagTrue_eq_false c.safe hs
  refine ⟨⟨?_, ?_⟩, by decide, by decide, rfl, by decide⟩
  · intro h
    by_cases hst : jsStartsWith (resolveTemplate (c.cmd.getD "") vars) "echo" = true
    · exact hst
    · have hw : streamExecText c vars = echoWrap (resolveTemplate (c.cmd.getD "") vars) := by
        simp [streamExecText, hf, Bool.eq_false_iff.mpr hst]
      rw [h] at hw
      exact absurd hw.symm (echoWrap_ne _)
  · intro hst
    simp [streamExecText, hst]

theorem streamCommand_echo_only_witness :
    (streamExecText lsCmd [] = resolveTemplate (lsCmd.cmd.getD "") []
      ↔ jsStartsWith (resolveTemplate (lsCmd.cmd.getD "") []) "echo" = true)
    ∧ streamExecText lsCmd [] = echoWrap "ls -la"
    ∧ runCommandExecText lsCmd [] = "ls -la"
    ∧ lsCmd.safe = none ∧ isInherentlySafe "ls -la" = true :=
  streamCommand_echo_only lsCmd [] (by decide)

/-- `InstallStep` (from `src/src/app/types/installer-config.ts`). -/
structure InstallStep where
  name : String := ""
  description : String := ""
  condition : Option String := none
  commands : List InstallCommand := []
deriving DecidableEq, Repr

/-- The predicate of the step filter in `installer:getInstallSteps` and
`getFilteredInstallSteps` (`installerIPC.ts` lines 260-266 and 278-284):
when `step.condition` is a truthy (non-empty) string the step is kept iff
`userConfig[step.condition] === true` — strict equality with the boolean
`true`; otherwise the step is kept. -/
def stepAllowed (userConfig : Store) (step : InstallStep) : Bool :=
  match step.condition with
  | some c => if c == "" then true else jsLookup userConfig c == some (Value.bool true)
  | none => true

/-- `getFilteredInstallSteps` (`installerIPC.ts` lines 272-287), also the
body of `installer:getInstallSteps` (lines 254-269). -/
def getFilteredInstallSteps (installSteps : List InstallStep) (userConfig : Store) :
    List InstallStep :=
  installSteps.filter (stepAllowed userConfig)

/-- Events sent to the renderer by `installer:runInstallation`. -/
inductive IpcEvent where
  | stepStart (name description : String)
  | commandOutput (channel : String) (data : String) (command : String)
  | stepError (step error : String)
  | stepComplete (name : String)
deriving DecidableEq, Repr

/-- One chunk of process output, from stdout or stderr. -/
inductive ChunkSrc where
  | out
  | err
deriving DecidableEq, Repr

/-- How a spawned process ends: a `close` event with an exit code, or an
`error` event with a message. -/
inductive ExecEnd where
  | closed (code : Int)
  | failed (msg : String)
deriving DecidableEq, Repr

/-- Observable behaviour of one spawned process: its output chunks and how
it ends. -/
structure ExecRun where
  chunks : List (ChunkSrc × String) := []
  fin : ExecEnd := ExecEnd.closed 0
deriving DecidableEq, Repr

def chunkChannel : ChunkSrc → String
  | ChunkSrc.out => "stdout"
  | ChunkSrc.err => "stderr"

/-- `output += chunk` accumulation across both streams. -/
def concatChunks (chunks : List (ChunkSrc × String)) : String :=
  chunks.foldl (fun acc ch => acc ++ ch.snd) ""

/-- JS `a || b` on strings. -/
def jsOrStr (a b : String) : String := if a == "" then b else a

/-- The result record resolved by the per-command promise of
`installer:runInstallation` (`installerIPC.ts` lines 362-379) and by
`installer:streamCommand`. -/
structure StreamResultR where
  success : Bool
  output : String
  exitCode : Option Int := none
  error : Option String := none
  command : Option String := none
deriving DecidableEq, Repr

/-- `installer:runInstallation`, per-command result (lines 362-379). -/
def ipcCommandResult (c : InstallCommand) (processed : String) (run : ExecRun) : StreamResultR :=
  match run.fin with
  | ExecEnd.closed code =>
      { success := code == 0, output := concatChunks run.chunks, exitCode := some code,
        command := some (if flagTrue c.sensitive then "[REDACTED]" else processed) }
  | ExecEnd.failed m =>
      { success := false, output := m, error := some m, exitCode := some (-1),
        command := some (if flagTrue c.sensitive then "[REDACTED]" else processed) }

/-- The `commandOutput` events emitted while one command streams
(lines 340-360): one per chunk, carrying the command description. -/
def ipcCommandEvents (c : InstallCommand) (run : ExecRun) : List IpcEvent :=
  run.chunks.map (fun ch => IpcEvent.commandOutput (chunkChannel ch.fst) ch.snd c.description)

/-- The inner command loop of `installer:runInstallation`
(lines 304-408): run each command in order; after a failed command with a
declared `expectedExitCode` that the actual exit code does not match, emit
`stepError` and break out of the loop. `execF` gives the behaviour of the
process spawned for a given final command text. -/
def ipcCommandsEvents (execF : String → ExecRun) (conf : Store) (stepName : String) :
    List InstallCommand → List IpcEvent
  | [] => []
  | c :: rest =>
    let run := execF (runCommandExecText c conf)
    let res := ipcCommandResult c (runCommandExecText c conf) run
    let evs := ipcCommandEvents c run
    if !res.success && c.expectedExitCode.isSome && !(res.exitCode == c.expectedExitCode) then
      evs ++ [IpcEvent.stepError stepName (jsOrStr (res.error.getD "") "Command failed")]
    else
      evs ++ ipcCommandsEvents execF conf stepName rest

/-- Events of one step: `stepStart`, the command events, `stepComplete`
(`stepComplete` is emitted even after a `stepError` break, as in the
source). -/
def ipcStepEvents (execF : String → ExecRun) (conf : Store) (step : InstallStep) :
    List IpcEvent :=
  IpcEvent.stepStart step.name step.description
    :: (ipcCommandsEvents execF conf step.name step.commands
        ++ [IpcEvent.stepComplete step.name])

/-- `installer:runInstallation` (lines 290-416): iterates exactly over
`getFilteredInstallSteps()`. -/
def ipcRunInstallationEvents (execF : String → ExecRun) (installSteps : List InstallStep)
    (conf : Store) : List IpcEvent :=
  List.flatten ((getFilteredInstallSteps installSteps conf).map (ipcStepEvents execF conf))

/-- A concrete step gated on the variable `flag`. -/
def cexStep : InstallStep :=
  { name := "feature step", description := "enable the feature",
    condition := some "flag",
    commands := [{ cmd := some "./enable.sh", description := "enable" }] }

/-- C4 counterexample: the store binds `flag` to the truthy string "yes",
yet the step is filtered out, because the filter tests strict equality
with the boolean `true`, not truthiness. -/
theorem stepCondition_truthy_cex :
    truthy (Value.str "yes") = true
    ∧ getFilteredInstallSteps [cexStep] [("flag", Value.str "yes")] = [] := by
  decide

/-- C4 (amended): a step with a non-empty `condition` runs iff the named
user-config variable is strictly the boolean `true` (not merely truthy);
a step whose condition variable is false, absent, or truthy-but-not-`true`
is dropped by the filter, and `installer:runInstallation` iterates only
the filtered list, so a dropped step contributes no events at all — in
particular none of its commands execute and no `commandOutput` events are
emitted for it. -/
theorem stepCondition_strict_true (steps : List InstallStep) (conf : Store)
    (step : InstallStep) :
    (step ∈ getFilteredInstallSteps steps conf ↔ step ∈ steps ∧ stepAllowed conf step = true)
    ∧ (∀ c, step.condition = some c → c ≠ "" →
        (stepAllowed conf step = true ↔ jsLookup conf c = some (Value.bool true)))
    ∧ (stepAllowed conf step = false →
        ∀ execF : String → ExecRun, ipcRunInstallationEvents execF [step] conf = []) := by
  refine ⟨List.mem_filter, ?_, ?_⟩
  · intro c hc hne
    simp [stepAllowed, hc, hne]
  · intro hfalse execF
    simp [ipcRunInstallationEvents, getFilteredInstallSteps, hfalse]

theorem stepCondition_strict_true_witness :
    (stepAllowed [("flag", Value.str "yes")] cexStep = true
      ↔ jsLookup [("flag", Value.str "yes")] "flag" = some (Value.bool true))
    ∧ ipcRunInstallationEvents (fun _ => {}) [cexStep] [("flag", Value.str "yes")] = [] :=
  ⟨(stepCondition_strict_true [cexStep] [("flag", Value.str "yes")] cexStep).2.1
      "flag" rfl (by decide),
   (stepCondition_strict_true [cexStep] [("flag", Value.str "yes")] cexStep).2.2
      (by decide) (fun _ => {})⟩

/-- `command.timeout || 30000` (`installerIPC.ts` line 240): the effective
timeout; `undefined` and `0` fall back to the 30000 ms default. -/
def effTimeout : Option Nat → Nat
  | some v => if v == 0 then 30000 else v
  | none => 30000

/-- Behaviour of the process spawned by `installer:streamCommand`: output
chunks, how it ends, and how long it runs (ms). -/
structure TimedRun where
  chunks : List (ChunkSrc × String) := []
  fin : ExecEnd := ExecEnd.closed 0
  duration : Nat := 0
deriving DecidableEq, Repr

/-- Outcome of `installer:streamCommand`: the resolved result and whether
`child.kill()` was invoked by the timeout handler. -/
structure StreamOutcome where
  result : StreamResultR
  killed : Bool
deriving DecidableEq, Repr

/-- `installer:streamCommand` (`installerIPC.ts` lines 167-251): the
promise resolves with whichever fires first — the `close`/`error` event of
the child, or the `setTimeout` handler at the effective timeout, which
kills the process and resolves the timeout result. A process outliving the
timeout therefore yields the timeout result (a tie is modelled as the
child winning; the claims below only concern strictly longer runs). -/
def streamCommand (c : InstallCommand) (vars : Store) (run : TimedRun) : StreamOutcome :=
  let processed := streamExecText c vars
  let cmdField := if flagTrue c.sensitive then "[REDACTED]" else processed
  if run.duration ≤ effTimeout c.timeout then
    match run.fin with
    | ExecEnd.closed code =>
        { result := { success := code == 0, output := concatChunks run.chunks,
                      exitCode := some code, command := some cmdField },
          killed := false }
    | ExecEnd.failed m =>
        { result := { success := false, output := m, error := some m,
                      command := some cmdField },
          killed := false }
  else
    { result := { success := false, output := "Command timed out",
                  error := some "Timeout exceeded", command := some cmdField },
      killed := true }

/-- C3: a streamed command whose process runs longer than the effective
timeout (default 30000 ms) is forcibly killed, and the resolved result is
`success: false` with error `"Timeout exceeded"`. -/
theorem streamCommand_timeout (c : InstallCommand) (vars : Store) (run : TimedRun)
    (h : effTimeout c.timeout < run.duration) :
    (streamCommand c vars run).killed = true
    ∧ (streamCommand c vars run).result.success = false
    ∧ (streamCommand c vars run).result.error = some "Timeout exceeded"
    ∧ effTimeout none = 30000 := by
  have hn : ¬ (run.duration ≤ effTimeout c.timeout) := Nat.not_le.mpr h
  refine ⟨?_, ?_, ?_, rfl⟩ <;> simp [streamCommand, hn]

/-- A command with a 500 ms timeout. -/
def timeoutCmd : InstallCommand :=
  { cmd := some "sleep 10", description := "long sleep", timeout := some 500 }

theorem streamCommand_timeout_witness :
    (streamCommand timeoutCmd [] { duration := 501 }).killed = true
    ∧ (streamCommand timeoutCmd [] { duration := 501 }).result.success = false
    ∧ (streamCommand timeoutCmd [] { duration := 501 }).result.error = some "Timeout exceeded"
    ∧ effTimeout none = 30000 :=
  streamCommand_timeout timeoutCmd [] { duration := 501 } (by decide)

/-- ASCII lower-casing of one character (models JS `toLowerCase` on the
ASCII range, which is what the `i` regex flag folds). -/
def lcChar (c : Char) : Char :=
  if 65 ≤ c.toNat ∧ c.toNat ≤ 90 then Char.ofNat (c.toNat + 32) else c

/-- ASCII lower-casing of a string. -/
def lowerStr (s : String) : String := String.mk (s.data.map lcChar)

/-- `needle` occurs somewhere in `hay`. -/
def occursIn : List Char → List Char → Bool
  | needle, [] => leadMatch needle []
  | needle, c :: rest => leadMatch needle (c :: rest) || occursIn needle rest

/-- Models `new RegExp(pattern, 'i').test(output)` for a pattern without
regex metacharacters: case-insensitive substring containment. -/
def regexTestCI (pattern output : String) : Bool :=
  occursIn (lowerStr pattern).data (lowerStr output).data

/-- Pre-check probe types. -/
inductive CheckType where
  | diskSpace
  | memory
  | cpu
deriving DecidableEq, Repr

/-- `PreCheck` (from `src/src/app/types/installer-config.ts`). -/
structure PreCheck where
  name : String := ""
  command : String := ""
  expectedPattern : Option String := none
  expectedExitCode : Option Int := none
  minRequired : Option String := none
  type : Option CheckType := none
  errorMessage : String := ""
  safe : Option Bool := none
  captureAs : Option String := none
deriving DecidableEq, Repr

/-- The allow-list of `installer:runPreCheck` (`installerIPC.ts`
lines 58-61). -/
def preCheckSafeCommands : List String :=
  ["uname", "hostname", "whoami", "pwd", "date", "df", "free",
   "ip route", "ip addr", "ls", "cat /etc/os-release", "echo"]

/-- `isActuallySafe` (`installerIPC.ts` lines 64-68). -/
def preCheckIsActuallySafe (cmd : String) : Bool :=
  preCheckSafeCommands.any (fun s => jsStartsWith cmd (s ++ " ") || cmd == s
    || jsStartsWith cmd "echo ")

/-- The text `installer:runPreCheck` actually executes (line 71). -/
def preCheckExecText (check : PreCheck) : String :=
  if preCheckIsActuallySafe check.command then check.command else echoWrap check.command

/-- Return shape of `installer:runPreCheck`. -/
structure PreCheckResult where
  success : Bool
  output : String
  warning : Option String := none
  error : Option String := none
deriving DecidableEq, Repr

/-- Outcome of one `execAsync` call: stdout/stderr on success, or a thrown
error message. -/
inductive ExecOutcome where
  | ok (stdout stderr : String)
  | err (msg : String)
deriving DecidableEq, Repr

/-- An apostrophe, for message literals. -/
def apos : String := String.singleton (Char.ofNat 39)

/-- The pattern-mismatch error message of `installer:runPreCheck`
(line 86). -/
def patternMismatchMsg (p : String) : String :=
  "Output doesn" ++ apos ++ "t match expected pattern: " ++ p

/-- The tail of `installer:runPreCheck` after the pattern test passed
(lines 91-104): the simplified disk-space branch attaches an advisory
warning, every branch reports success. -/
def preCheckAfterPattern (check : PreCheck) (output : String) : PreCheckResult :=
  match check.type with
  | some CheckType.diskSpace =>
      { success := true, output := output,
        warning :=
          match check.minRequired with
          | some m => if m == "" then none
                      else some ("Ensure at least " ++ m ++ " is available")
          | none => none }
  | _ => { success := true, output := output }

/-- `installer:runPreCheck` (`installerIPC.ts` lines 55-112), given the
outcome of the underlying `execAsync` call: combine stdout/stderr with
`||`, test `expectedPattern` case-insensitively when it is a truthy
string, and classify. -/
def runPreCheck (check : PreCheck) (outcome : ExecOutcome) : PreCheckResult :=
  match outcome with
  | ExecOutcome.err m => { success := false, output := m, error := some m }
  | ExecOutcome.ok out errOut =>
      let output := jsOrStr out errOut
      match check.expectedPattern with
      | some p =>
          if p == "" then preCheckAfterPattern check output
          else if regexTestCI p output then preCheckAfterPattern check output
          else { success := false, output := output, error := some (patternMismatchMsg p) }
      | none => preCheckAfterPattern check output

theorem preCheckAfterPattern_success (check : PreCheck) (output : String) :
    (preCheckAfterPattern check output).success = true := by
  rcases ht : check.type with _ | t
  · simp [preCheckAfterPattern, ht]
  · cases t <;> simp [preCheckAfterPattern, ht]

theorem jsOrStr_left (a b : String) (h : a ≠ "") : jsOrStr a b = a := by
  simp [jsOrStr, h]

theorem leadMatch_refl (l : List Char) : leadMatch l l = true := by
  induction l with
  | nil => rfl
  | cons c rest ih => simp [leadMatch, ih]

theorem occursIn_self (l : List Char) : occursIn l l = true := by
  cases l with
  | nil => rfl
  | cons c rest => simp [occursIn, leadMatch_refl]

theorem regexTestCI_self_lower (p o : String) (h : lowerStr o = lowerStr p) :
    regexTestCI p o = true := by
  rw [regexTestCI, h]
  exact occursIn_self _

theorem jsOrStr_empty (a : String) : jsOrStr a "" = a := by
  by_cases h : a = "" <;> simp [jsOrStr, h]

/-- C10: `installer:runPreCheck` matches `expectedPattern` against the
command output case-insensitively — outputs differing only in letter case
classify identically, and an output that equals the pattern up to case
passes — while a pattern mismatch yields `success: false` with an error
message naming the expected pattern. -/
theorem runPreCheck_pattern_case_insensitive (check : PreCheck) (p out out2 errOut : String)
    (hp : check.expectedPattern = some p) (hpne : p ≠ "") :
    (lowerStr out = lowerStr out2 →
      (runPreCheck check (ExecOutcome.ok out "")).success
        = (runPreCheck check (ExecOutcome.ok out2 "")).success)
    ∧ (lowerStr out = lowerStr p →
        (runPreCheck check (ExecOutcome.ok out "")).success = true)
    ∧ (regexTestCI p out = false → out ≠ "" →
        runPreCheck check (ExecOutcome.ok out errOut)
          = { success := false, output := out, error := some (patternMismatchMsg p) }) := by
  have hpb : (p == "") = false := by simp [hpne]
  refine ⟨?_, ?_, ?_⟩
  · intro h
    have hr : regexTestCI p out2 = regexTestCI p out := by
      rw [regexTestCI, regexTestCI, h]
    by_cases hb : regexTestCI p out = true
    · simp [runPreCheck, hp, hpb, jsOrStr_empty, hb, hr, preCheckAfterPattern_success]
    · have hb2 : regexTestCI p out = false := Bool.eq_false_iff.mpr hb
      simp [runPreCheck, hp, hpb, jsOrStr_empty, hb2, hr]
  · intro h
    have hb : regexTestCI p out = true := regexTestCI_self_lower p out h
    simp [runPreCheck, hp, hpb, jsOrStr_empty, hb, preCheckAfterPattern_success]
  · intro hb hne
    simp [runPreCheck, hp, hpb, jsOrStr_left out errOut hne, hb]

/-- A concrete pre-check probing the OS name. -/
def verCheck : PreCheck :=
  { name := "os", command := "uname", expectedPattern := some "Linux",
    errorMessage := "unsupported os" }

theorem runPreCheck_pattern_case_insensitive_witness :
    (runPreCheck verCheck (ExecOutcome.ok "linux 6.1" "")).success
      = (runPreCheck verCheck (ExecOutcome.ok "LINUX 6.1" "")).success :=
  (runPreCheck_pattern_case_insensitive verCheck "Linux" "linux 6.1" "LINUX 6.1" "" rfl
    (by decide)).1 (by decide)

/-- Log line types of the advanced installation terminal
(`TerminalLine.type`): `command | output | error | success | info | step |
variable` in the source. -/
inductive LineType where
  | commandL
  | outputL
  | errorL
  | successL
  | infoL
  | stepL
  | variableL
deriving DecidableEq, Repr

/-- One Run Log line (`TerminalLine` without the cosmetic id/timestamp). -/
structure LogLine where
  type : LineType
  content : String
deriving DecidableEq, Repr

/-- `evaluateCondition` of the advanced stage: the source compiles the raw
condition string with `new Function(...Object.keys(allVariables), ...)`
and runs it on the variable values — arbitrary host code, abstracted here
as `hostEval`; any exception is caught and yields `false`. -/
def evaluateCondition (hostEval : String → Store → Except String Bool)
    (condition : String) (vars : Store) : Bool :=
  match hostEval condition vars with
  | Except.ok b => b
  | Except.error _ => false

/-- Return shape of `installer:runCommand`. -/
structure ExecutionResult where
  success : Bool
  output : String
  error : Option String := none
  command : Option String := none
deriving DecidableEq, Repr

/-- `installer:runCommand` (`installerIPC.ts` lines 115-164), given the
outcome of `execAsync` on the final command text: on success the `command`
field carries the processed command, on failure the raw `command.cmd`;
both are replaced by `[REDACTED]` when the command is `sensitive`. -/
def runCommand (c : InstallCommand) (vars : Store) (outcome : ExecOutcome) :
    ExecutionResult :=
  let processed := runCommandExecText c vars
  match outcome with
  | ExecOutcome.ok out errOut =>
      { success := true, output := jsOrStr out errOut,
        command := some (if flagTrue c.sensitive then "[REDACTED]" else processed) }
  | ExecOutcome.err m =>
      { success := false, output := m, error := some m,
        command := if flagTrue c.sensitive then some "[REDACTED]" else c.cmd }

/-- The console line printed by `installer:runCommand` (lines 143-145):
suppressed entirely for sensitive commands. -/
def runCommandConsole (c : InstallCommand) (vars : Store) : List String :=
  if flagTrue c.sensitive then [] else ["Executing: " ++ runCommandExecText c vars]

/-- `allVariables = \x7b ...config, ...runtimeVariables \x7d`: runtime
captures shadow user-config values (for lookups; the enumeration order
used by template resolution differs only when a replacement value itself
contains a placeholder of an overridden key). -/
def allVars (config runtime : Store) : Store := runtime ++ config

/-- Whitespace folded by `String.prototype.trim` (ASCII subset). -/
def wsChar (c : Char) : Bool := c == ' ' || c == '\n' || c == '\t' || c == '\r'

/-- JS `string.trim()`. -/
def jsTrim (s : String) : String :=
  String.mk ((s.data.dropWhile wsChar).reverse.dropWhile wsChar).reverse

def splitLinesAux : List Char → List Char → List String
  | [], acc => [String.mk acc.reverse]
  | c :: rest, acc =>
    if c == '\n' then String.mk acc.reverse :: splitLinesAux rest []
    else splitLinesAux rest (c :: acc)

/-- JS `string.split('\n')`. -/
def splitLines (s : String) : List String := splitLinesAux s.data []

/-- The `output` log lines added for one command result
(advanced stage, lines 181-188): every non-blank line of the trimmed
output. -/
def outputLogLines (out : String) : List LogLine :=
  ((splitLines (jsTrim out)).filter (fun l => jsTrim l != "")).map
    (fun l => LogLine.mk LineType.outputL l)

/-- Result of `processCommand` in the advanced stage: updated runtime
variables, the log lines appended, and `aborted = some msg` when the
command failure threw (which the run-level catch turns into run failure). -/
structure ProcResult where
  runtime : Store
  log : List LogLine
  aborted : Option String := none
deriving DecidableEq, Repr

/-- `processCommand` of the advanced stage (lines 140-219). `hostEval`
abstracts the dynamic condition evaluation, `hostExec` the outcome of
`execAsync` on the final command text handed to `installer:runCommand`.
The prompt variant suspends (its resume is `handlePromptSubmit` below) and
the display variant auto-advances; both only log here. -/
def processCommand (hostEval : String → Store → Except String Bool)
    (hostExec : String → ExecOutcome) (config runtime : Store)
    (c : InstallCommand) : ProcResult :=
  let vars := allVars config runtime
  if optTruthy c.condition
      && !(evaluateCondition hostEval (c.condition.getD "") vars) then
    { runtime := runtime,
      log := [LogLine.mk LineType.infoL
        ("⊘ Skipping: " ++ c.description ++ " (condition not met)")] }
  else if c.type == some CmdType.prompt then
    { runtime := runtime,
      log := [LogLine.mk LineType.infoL ("⌨ User input required: " ++ c.description)] }
  else if c.type == some CmdType.display then
    { runtime := runtime,
      log := [LogLine.mk LineType.infoL
        ("📊 Displaying: " ++ jsOrStr (c.title.getD "") "Information")] }
  else if !(optTruthy c.cmd) then
    { runtime := runtime,
      log := [LogLine.mk LineType.errorL ("✗ No command specified for: " ++ c.description)] }
  else
    let res := runCommand c vars (hostExec (runCommandExecText c vars))
    let key := c.captureAs.getD ""
    let headerLog := [LogLine.mk LineType.commandL ("$ " ++ c.description)]
    let outLog := if res.output != "" then outputLogLines res.output else []
    let captured := jsTrim res.output
    let doCapture := res.output != "" && optTruthy c.captureAs && res.success
    let runtime1 :=
      if doCapture then
        storeSet key (Value.str (jsOrStr captured (c.defaultValue.getD ""))) runtime
      else runtime
    let capLog :=
      if doCapture then
        [LogLine.mk LineType.variableL ("📝 Captured " ++ key ++ ": " ++ captured)]
      else []
    if res.success then
      { runtime := runtime1,
        log := headerLog ++ outLog ++ capLog
          ++ [LogLine.mk LineType.successL ("✓ " ++ c.description ++ " completed")] }
    else if optTruthy c.captureAs && optTruthy c.defaultValue then
      { runtime := storeSet key (Value.str (c.defaultValue.getD "")) runtime1,
        log := headerLog ++ outLog ++ capLog
          ++ [LogLine.mk LineType.infoL ("⚠ Using default value for " ++ key ++ ": "
               ++ c.defaultValue.getD "")] }
    else
      let failLog := headerLog ++ outLog ++ capLog
        ++ [LogLine.mk LineType.errorL ("✗ Command failed: "
             ++ jsOrStr (res.error.getD "") "Unknown error")]
      if flagTrue c.safe then { runtime := runtime1, log := failLog }
      else { runtime := runtime1, log := failLog, aborted := some (res.error.getD "") }

/-- The display form of a prompt answer in its capture log line
(lines 227-230): arrays join with `, `, other values coerce as in a
template literal. -/
def promptDisplayValue (v : Value) : String :=
  match v with
  | Value.arr xs => String.intercalate ", " xs
  | v => jsString v

/-- `handlePromptSubmit` (lines 221-235): when the prompt has a truthy
`captureAs`, store the submitted value and log it — masked only for
`password`-type prompts — then resume. -/
def handlePromptSubmit (prompt : InstallCommand) (value : Value) (runtime : Store) :
    Store × List LogLine :=
  if optTruthy prompt.captureAs then
    (storeSet (prompt.captureAs.getD "") value runtime,
     [LogLine.mk LineType.variableL ("📝 Captured " ++ prompt.captureAs.getD "" ++ ": " ++
        (if prompt.promptType == some PromptType.password then "********"
         else promptDisplayValue value))])
  else (runtime, [])

/-- The inner command loop of the advanced `runInstallation`
(lines 253-263): commands run in order; a thrown command failure aborts
the rest of the loop. -/
def runCommands (hostEval : String → Store → Except String Bool)
    (hostExec : String → ExecOutcome) (config : Store) :
    Store → List InstallCommand → ProcResult
  | runtime, [] => { runtime := runtime, log := [] }
  | runtime, c :: rest =>
    let r := processCommand hostEval hostExec config runtime c
    match r.aborted with
    | some e => { runtime := r.runtime, log := r.log, aborted := some e }
    | none =>
      let next := runCommands hostEval hostExec config r.runtime rest
      { runtime := next.runtime, log := r.log ++ next.log, aborted := next.aborted }

/-- The step loop of the advanced `runInstallation` (lines 248-288): step
header lines, the step's commands, a completion line; an abort is caught
by the run-level `catch` (lines 282-285), which logs the failure and ends
the run — later steps never run. -/
def runSteps (hostEval : String → Store → Except String Bool)
    (hostExec : String → ExecOutcome) (config : Store) :
    Store → List InstallStep → ProcResult
  | runtime, [] => { runtime := runtime, log := [] }
  | runtime, s :: rest =>
    let header := [LogLine.mk LineType.stepL ("\n📦 " ++ s.name),
                   LogLine.mk LineType.infoL s.description]
    let r := runCommands hostEval hostExec config runtime s.commands
    match r.aborted with
    | some e =>
        { runtime := r.runtime,
          log := header ++ r.log
            ++ [LogLine.mk LineType.errorL ("Installation failed: " ++ e)],
          aborted := some e }
    | none =>
        let next := runSteps hostEval hostExec config r.runtime rest
        { runtime := next.runtime,
          log := header ++ r.log
            ++ [LogLine.mk LineType.successL ("✓ " ++ s.name ++ " completed successfully\n")]
            ++ next.log,
          aborted := next.aborted }

theorem jsLookup_set (k : String) (v : Value) (s : Store) :
    jsLookup (storeSet k v s) k = some v := by
  simp [storeSet, jsLookup]

/-- A host evaluator that always throws (the behaviour of `new Function`
on a malformed expression). -/
def cexHostEval : String → Store → Except String Bool := fun _ _ => Except.error "SyntaxError"

/-- A process execution that always fails. -/
def cexHostExec : String → ExecOutcome := fun _ => ExecOutcome.err "boom"

/-- A command gated on a malformed condition expression. -/
def badCondCmd : InstallCommand :=
  { cmd := some "echo hi", description := "conditional step", condition := some "x ===" }

/-- C8: for every malformed condition expression (one whose dynamic
evaluation throws) and every variable store, `evaluateCondition` returns
`false` and `processCommand` skips the command: the runtime variables are
unchanged, a single skip info line is logged, and the run is not
aborted. -/
theorem conditionEval_malformed (hostEval : String → Store → Except String Bool)
    (hostExec : String → ExecOutcome) (config runtime : Store) (c : InstallCommand)
    (cond msg : String)
    (hc : c.condition = some cond) (hne : cond ≠ "")
    (h : hostEval cond (allVars config runtime) = Except.error msg) :
    evaluateCondition hostEval cond (allVars config runtime) = false
    ∧ processCommand hostEval hostExec config runtime c =
        { runtime := runtime,
          log := [LogLine.mk LineType.infoL
            ("⊘ Skipping: " ++ c.description ++ " (condition not met)")] } := by
  have he : evaluateCondition hostEval cond (allVars config runtime) = false := by
    simp [evaluateCondition, h]
  have hot : optTruthy (some cond) = true := by simp [optTruthy, hne]
  exact ⟨he, by simp [processCommand, hc, hot, he]⟩

theorem conditionEval_malformed_witness :
    evaluateCondition cexHostEval "x ===" (allVars [] []) = false
    ∧ processCommand cexHostEval cexHostExec [] [] badCondCmd =
        { runtime := [],
          log := [LogLine.mk LineType.infoL
            ("⊘ Skipping: " ++ badCondCmd.description ++ " (condition not met)")] } :=
  conditionEval_malformed cexHostEval cexHostExec [] [] badCondCmd "x ===" "SyntaxError"
    rfl (by decide) rfl

/-- C5 (amended): a failing command whose `captureAs` and `defaultValue`
are both truthy (non-empty) stores the default under the capture key and
does not abort — the run continues with the next command; a failing
command with no capture fallback and without `safe:true` aborts, and the
remaining steps of the run are never executed. -/
theorem captureDefault_on_failure (hostEval : String → Store → Except String Bool)
    (hostExec : String → ExecOutcome) (config runtime : Store) (c : InstallCommand)
    (x d m : String)
    (hx : c.captureAs = some x) (hxne : x ≠ "")
    (hd : c.defaultValue = some d) (hdne : d ≠ "")
    (hcond : c.condition = none) (htype : c.type = none)
    (hcmd : optTruthy c.cmd = true)
    (hfail : hostExec (runCommandExecText c (allVars config runtime)) = ExecOutcome.err m) :
    (jsLookup (processCommand hostEval hostExec config runtime c).runtime x
        = some (Value.str d)
      ∧ (processCommand hostEval hostExec config runtime c).aborted = none
      ∧ ∀ rest : List InstallCommand,
          (runCommands hostEval hostExec config runtime (c :: rest)).aborted
            = (runCommands hostEval hostExec config
                (processCommand hostEval hostExec config runtime c).runtime rest).aborted)
    ∧ (∀ c2 : InstallCommand, c2.captureAs = none → c2.safe ≠ some true →
        c2.condition = none → c2.type = none → optTruthy c2.cmd = true →
        ∀ m2 : String,
          hostExec (runCommandExecText c2 (allVars config runtime)) = ExecOutcome.err m2 →
          (processCommand hostEval hostExec config runtime c2).aborted = some m2
          ∧ ∀ (nm ds : String) (more : List InstallCommand) (others : List InstallStep),
              runSteps hostEval hostExec config runtime
                (InstallStep.mk nm ds none (c2 :: more) :: others)
              = runSteps hostEval hostExec config runtime
                [InstallStep.mk nm ds none (c2 :: more)]) := by
  have hox : optTruthy (some x) = true := by simp [optTruthy, hxne]
  have hod : optTruthy (some d) = true := by simp [optTruthy, hdne]
  have hoc : optTruthy (none : Option String) = false := rfl
  have hrt : (processCommand hostEval hostExec config runtime c).runtime
      = storeSet x (Value.str d) runtime := by
    simp [processCommand, hcond, htype, hcmd, hx, hd, hfail, runCommand, hox, hod, hoc]
  have hab : (processCommand hostEval hostExec config runtime c).aborted = none := by
    simp [processCommand, hcond, htype, hcmd, hx, hd, hfail, runCommand, hox, hod, hoc]
  refine ⟨⟨by rw [hrt]; exact jsLookup_set x (Value.str d) runtime, hab, ?_⟩, ?_⟩
  · intro rest
    simp [runCommands, hab]
  · intro c2 hx2 hsafe2 hcond2 htype2 hcmd2 m2 hfail2
    have hsf : flagTrue c2.safe = false := flagTrue_eq_false c2.safe hsafe2
    have hoc2 : optTruthy (none : Option String) = false := rfl
    have hab2 : (processCommand hostEval hostExec config runtime c2).aborted = some m2 := by
      simp [processCommand, hcond2, htype2, hcmd2, hx2, hfail2, runCommand, hsf, hoc2]
    refine ⟨hab2, ?_⟩
    intro nm ds more others
    simp [runSteps, runCommands, hab2]

/-- A failing capture command whose `defaultValue` is the empty string. -/
def cexFailCmd : InstallCommand :=
  { cmd := some "getver --full", description := "get version",
    captureAs := some "x", defaultValue := some "" }

/-- C5 counterexample: a failing command with `captureAs = "x"` and
`defaultValue = ""` — both fields present — does NOT store the default
and does NOT continue: the empty default is falsy, so the fallback branch
is skipped and the unsafe failure aborts the run with `x` left unset. -/
theorem captureDefault_empty_cex :
    cexFailCmd.captureAs = some "x" ∧ cexFailCmd.defaultValue = some ""
    ∧ (processCommand cexHostEval cexHostExec [] [] cexFailCmd).aborted = some "boom"
    ∧ jsLookup (processCommand cexHostEval cexHostExec [] [] cexFailCmd).runtime "x" = none := by
  decide

/-- A failing capture command with a non-empty default. -/
def defFailCmd : InstallCommand :=
  { cmd := some "getver --full", description := "get version",
    captureAs := some "ver", defaultValue := some "1.0.0" }

theorem captureDefault_on_failure_witness :
    jsLookup (processCommand cexHostEval cexHostExec [] [] defFailCmd).runtime "ver"
        = some (Value.str "1.0.0")
    ∧ (processCommand cexHostEval cexHostExec [] [] defFailCmd).aborted = none :=
  ⟨(captureDefault_on_failure cexHostEval cexHostExec [] [] defFailCmd "ver" "1.0.0" "boom"
      rfl (by decide) rfl (by decide) rfl rfl (by decide) rfl).1.1,
   (captureDefault_on_failure cexHostEval cexHostExec [] [] defFailCmd "ver" "1.0.0" "boom"
      rfl (by decide) rfl (by decide) rfl rfl (by decide) rfl).1.2.1⟩

/-- C6 (amended): a `sensitive` command's text is `[REDACTED]` in the
`command` field of every result of `installer:runCommand` and
`installer:streamCommand` (all resolve paths) and is never written to the
console log; the answer to a `password`-type prompt is masked as
`********` in its Run Log capture line. (Values captured from command
output are NOT masked — see the counterexample.) -/
theorem sensitive_redaction (c : InstallCommand) (vars : Store) (outcome : ExecOutcome)
    (run : TimedRun) (p : InstallCommand) (v : Value) (rt : Store) (key : String)
    (hs : flagTrue c.sensitive = true)
    (hk : p.captureAs = some key) (hkne : key ≠ "")
    (hp : p.promptType = some PromptType.password) :
    (runCommand c vars outcome).command = some "[REDACTED]"
    ∧ runCommandConsole c vars = []
    ∧ (streamCommand c vars run).result.command = some "[REDACTED]"
    ∧ (handlePromptSubmit p v rt).snd
        = [LogLine.mk LineType.variableL ("📝 Captured " ++ key ++ ": " ++ "********")] := by
  refine ⟨?_, ?_, ?_, ?_⟩
  · cases outcome <;> simp [runCommand, hs]
  · simp [runCommandConsole, hs]
  · rcases run with ⟨chunks, fin, dur⟩
    by_cases hle : dur ≤ effTimeout c.timeout
    · cases fin <;> simp [streamCommand, hs, hle]
    · simp [streamCommand, hs, hle]
  · have hok : optTruthy (some key) = true := by simp [optTruthy, hkne]
    simp [handlePromptSubmit, hok, hk, hp]

/-- A password-type prompt capturing into `adminPassword`. -/
def pwPrompt : InstallCommand :=
  { description := "admin password", type := some CmdType.prompt,
    promptType := some PromptType.password, captureAs := some "adminPassword" }

/-- A sensitive command. -/
def secretCmd : InstallCommand :=
  { cmd := some "vault read token", description := "read token", sensitive := some true }

theorem sensitive_redaction_witness :
    (runCommand secretCmd [] (ExecOutcome.ok "tok" "")).command = some "[REDACTED]"
    ∧ runCommandConsole secretCmd [] = []
    ∧ (streamCommand secretCmd [] { duration := 0 }).result.command = some "[REDACTED]"
    ∧ (handlePromptSubmit pwPrompt (Value.str "hunter2") []).snd
        = [LogLine.mk LineType.variableL ("📝 Captured " ++ "adminPassword" ++ ": " ++ "********")] :=
  sensitive_redaction secretCmd [] (ExecOutcome.ok "tok" "") { duration := 0 }
    pwPrompt (Value.str "hunter2") [] "adminPassword" rfl rfl (by decide) rfl

/-- A sensitive command capturing into the password-like key
`dbPassword`. -/
def cexPwCmd : InstallCommand :=
  { cmd := some "cat /secrets/db", description := "read db password",
    safe := some true, sensitive := some true, captureAs := some "dbPassword" }

/-- Its successful execution, printing the secret. -/
def cexPwExec : String → ExecOutcome := fun _ => ExecOutcome.ok "s3cret" ""

/-- C6 counterexample: the value captured from a `sensitive` command's
output under the password-like key `dbPassword` is written to the Run Log
in clear text by the capture line of `processCommand` — it is not
masked. -/
theorem sensitive_value_logged_cex :
    flagTrue cexPwCmd.sensitive = true
    ∧ LogLine.mk LineType.variableL "📝 Captured dbPassword: s3cret"
        ∈ (processCommand cexHostEval cexPwExec [] [] cexPwCmd).log := by
  decide
